import Mathlib

/-!
Verification of the `zohono` timesheet generator (`src/zohono/main.go`).

The program resolves a date range from CLI flags (`parseFlags`), builds one
record per weekday in the inclusive range (`buildLog`), and serializes the
records as CSV (`writeCSV`).

Modelling choices:
* Go's `time.Time` is modelled by `GoTime`: a count of calendar days since
  1970-01-01 together with the seconds elapsed within that day.  The program
  performs no timezone-aware computation (a stated non-goal of the spec), so
  a single fixed locale is assumed and zone offsets are not modelled.
* Calendar-field access (`Year`, `Month`, `Day`, formatting, `time.Date`)
  goes through the proleptic-Gregorian conversions `civilFromDays` /
  `daysFromCivil`, which mirror the cycle-cutting algorithm of `absDate` /
  `daysSinceEpoch` in Go's `time` package (with the epoch shifted to
  1970-01-01 and floor division instead of Go's huge positive offset).
* `time.Now()` is a parameter `now : GoTime` threaded to `parseFlags`.
* Errors built with `fmt.Errorf` are modelled structurally: each `GoErr`
  constructor carries exactly the values interpolated into the Go message.
-/

namespace Zohono

/-- The layout string `flagDateFormat = "2006-01-02"` (Go reference date). -/
def flagDateFormat : String := "2006-01-02"

/-- The layout string `csvDateFormat = "02-Jan-2006"`. -/
def csvDateFormat : String := "02-Jan-2006"

/-- The layout string `csvTimeFormat = "03:04 pm"`. -/
def csvTimeFormat : String := "03:04 pm"

/-- A proleptic-Gregorian calendar date, as produced by Go's
`time.Time.Date()` field accessors. -/
structure CivilDate where
  year : Int
  month : Int
  day : Int
deriving DecidableEq, Repr

/-- Go's `isLeap`: leap years of the proleptic Gregorian calendar. -/
def isLeap (y : Int) : Bool := y % 4 == 0 && (y % 100 != 0 || y % 400 == 0)

/-- Go's `daysBefore[k]`: days in a non-leap year before the end of the
`k`-th month (`daysBefore 0 = 0`, `daysBefore 12 = 365`). -/
def daysBefore (k : Int) : Int :=
  if k ≤ 0 then 0
  else if k = 1 then 31
  else if k = 2 then 59
  else if k = 3 then 90
  else if k = 4 then 120
  else if k = 5 then 151
  else if k = 6 then 181
  else if k = 7 then 212
  else if k = 8 then 243
  else if k = 9 then 273
  else if k = 10 then 304
  else if k = 11 then 334
  else 365

/-- Days from 1 January of year 1 to 1 January of year `y` in the proleptic
Gregorian calendar (what Go's `daysSinceEpoch` computes, up to the epoch
constant). -/
def yearDays (y : Int) : Int :=
  365 * (y - 1) + (y - 1) / 4 - (y - 1) / 100 + (y - 1) / 400

/-- Days from 1 January year 1 to 1 January 1970. -/
def epochDays : Int := yearDays 1970

/-- Day number (days since 1970-01-01) of a civil date; mirrors Go's
`time.Date` day computation: whole years, then `daysBefore`, then the
leap-day adjustment, then the day of month. -/
def daysFromCivil (c : CivilDate) : Int :=
  yearDays c.year + daysBefore (c.month - 1)
    + (if isLeap c.year = true ∧ 3 ≤ c.month then 1 else 0)
    + c.day - 1 - epochDays

/-- Year and 0-based day-of-year of a day count `d` measured from
1 January year 1; mirrors the cycle-cutting in Go's `absDate`
(`n -= n >> 2` is the clamp of a quotient 4 back to 3). -/
def yearYday (d : Int) : Int × Int :=
  let era := d / 146097
  let doe := d - era * 146097
  let n1r := doe / 36524
  let n1 := n1r - n1r / 4
  let rem1 := doe - 36524 * n1
  let n2 := rem1 / 1461
  let rem2 := rem1 - 1461 * n2
  let n3r := rem2 / 365
  let n3 := n3r - n3r / 4
  (400 * era + 100 * n1 + 4 * n2 + n3 + 1, rem2 - 365 * n3)

/-- Month and day-of-month from a year and 0-based day-of-year; mirrors the
month reconstruction in Go's `absDate`. -/
def monthDay (year yday : Int) : CivilDate :=
  let d := if isLeap year = true ∧ 59 < yday then yday - 1 else yday
  if isLeap year = true ∧ yday = 59 then ⟨year, 2, 29⟩
  else
    let m0 := d / 31
    let m1 := if daysBefore (m0 + 1) ≤ d then m0 + 1 else m0
    ⟨year, m1 + 1, d - daysBefore m1 + 1⟩

/-- Civil date of a day number (inverse of `daysFromCivil`). -/
def civilFromDays (z : Int) : CivilDate :=
  let p := yearYday (z + epochDays)
  monthDay p.1 p.2

theorem isLeap_iff (y : Int) :
    isLeap y = true ↔ (y % 4 = 0 ∧ (y % 100 ≠ 0 ∨ y % 400 = 0)) := by
  simp [isLeap, Bool.and_eq_true, Bool.or_eq_true, beq_iff_eq, bne_iff_ne]

theorem yearDays_decomp (era n1 n2 n3 : Int) (h1 : 0 ≤ n1) (h2 : n1 ≤ 3)
    (h3 : 0 ≤ n2) (h4 : n2 ≤ 24) (h5 : 0 ≤ n3) (h6 : n3 ≤ 3) :
    yearDays (400 * era + 100 * n1 + 4 * n2 + n3 + 1)
      = 146097 * era + 36524 * n1 + 1461 * n2 + 365 * n3 := by
  unfold yearDays
  omega

set_option maxHeartbeats 2000000 in
theorem yearYday_correct (d : Int) :
    yearDays (yearYday d).1 + (yearYday d).2 = d ∧
    0 ≤ (yearYday d).2 ∧
    ((yearYday d).2 ≤ 364 ∨
      ((yearYday d).2 = 365 ∧ isLeap (yearYday d).1 = true)) := by
  unfold yearYday
  dsimp only
  set era := d / 146097 with hera
  set doe := d - era * 146097 with hdoe
  set n1r := doe / 36524 with hn1r
  set n1 := n1r - n1r / 4 with hn1
  set rem1 := doe - 36524 * n1 with hrem1
  set n2 := rem1 / 1461 with hn2
  set rem2 := rem1 - 1461 * n2 with hrem2
  set n3r := rem2 / 365 with hn3r
  set n3 := n3r - n3r / 4 with hn3
  clear_value era doe n1r n1 rem1 n2 rem2 n3r n3
  have hdoeb : 0 ≤ doe ∧ doe ≤ 146096 := by omega
  have hb1 : 0 ≤ n1 ∧ n1 ≤ 3 := by omega
  have hr1 : 0 ≤ rem1 ∧ rem1 ≤ 36524 ∧ (36524 ≤ rem1 → doe = 146096 ∧ n1 = 3) := by
    omega
  have hb2 : 0 ≤ n2 ∧ n2 ≤ 24 := by omega
  have hr2 : 0 ≤ rem2 ∧ rem2 ≤ 1460 ∧ (rem2 = 1460 → n2 = 24 → doe = 146096 ∧ n1 = 3) := by
    omega
  have hb3 : 0 ≤ n3 ∧ n3 ≤ 3 ∧ (rem2 - 365 * n3 ≤ 364 ∨ (rem2 = 1460 ∧ n3 = 3)) := by
    omega
  refine ⟨?_, ?_, ?_⟩
  · rw [yearDays_decomp era n1 n2 n3 hb1.1 hb1.2 hb2.1 hb2.2 hb3.1 hb3.2.1]
    omega
  · omega
  · clear hera hdoe hdoeb hr1 hrem1
    rw [isLeap_iff]
    omega

theorem monthBump (d : Int) (h0 : 0 ≤ d) (h1 : d ≤ 364) :
    (59 ≤ d → 2 ≤ (if daysBefore (d / 31 + 1) ≤ d then d / 31 + 1 else d / 31)) ∧
    (d ≤ 58 → (if daysBefore (d / 31 + 1) ≤ d then d / 31 + 1 else d / 31) ≤ 1) := by
  constructor
  · intro h59
    have hm : d / 31 = 1 ∨ 2 ≤ d / 31 := by omega
    rcases hm with hm | hm
    · rw [hm]
      norm_num [daysBefore]
      omega
    · split_ifs <;> omega
  · intro h58
    have hm : d / 31 = 0 ∨ d / 31 = 1 := by omega
    rcases hm with hm | hm <;> rw [hm] <;> norm_num [daysBefore] <;> omega

theorem monthDay_correct (year yday : Int) (h0 : 0 ≤ yday)
    (h1 : yday ≤ 364 ∨ (yday = 365 ∧ isLeap year = true)) :
    (monthDay year yday).year = year ∧
    daysBefore ((monthDay year yday).month - 1)
      + (if isLeap year = true ∧ 3 ≤ (monthDay year yday).month then 1 else 0)
      + (monthDay year yday).day - 1 = yday := by
  unfold monthDay
  rcases hl : isLeap year with _ | _
  · have h364 : yday ≤ 364 := by
      rcases h1 with h | ⟨_, hc⟩
      · exact h
      · rw [hl] at hc; exact absurd hc (by simp)
    simp only [hl, false_and, if_false, Bool.false_eq_true]
    simp only [Int.add_sub_cancel]
    split_ifs <;> simp_all <;> omega
  · simp only [hl, eq_self_iff_true, true_and]
    by_cases h59 : yday = 59
    · simp only [h59, if_pos]
      norm_num [daysBefore]
    · simp only [if_neg h59]
      by_cases hgt : 59 < yday
      · have hle : yday ≤ 365 := by omega
        simp only [if_pos hgt]
        have hb := (monthBump (yday - 1) (by omega) (by omega)).1 (by omega)
        rw [if_pos (by omega : (3:Int) ≤ (if daysBefore ((yday - 1) / 31 + 1) ≤ yday - 1 then (yday - 1) / 31 + 1 else (yday - 1) / 31) + 1)]
        simp only [Int.add_sub_cancel]
        exact ⟨trivial, by omega⟩
      · have h364 : yday ≤ 364 := by omega
        simp only [if_neg hgt]
        have hb := (monthBump yday h0 h364).2 (by omega)
        rw [if_neg (by omega : ¬ ((3:Int) ≤ (if daysBefore (yday / 31 + 1) ≤ yday then yday / 31 + 1 else yday / 31) + 1))]
        simp only [Int.add_sub_cancel]
        exact ⟨trivial, by omega⟩

/-- Go's `time.Time`, restricted to what the program uses: the local
calendar day (days since 1970-01-01) and the clock time within that day
(seconds).  A single fixed locale is assumed throughout. -/
structure GoTime where
  days : Int
  sec : Int
deriving DecidableEq, Repr

/-- Seconds since the epoch; Go's `Time` comparisons operate on this. -/
def GoTime.absSec (t : GoTime) : Int := t.days * 86400 + t.sec

/-- Go's `t.After(u)`: strictly later instant. -/
def GoTime.after (t u : GoTime) : Bool := decide (u.absSec < t.absSec)

/-- Go's `t.Weekday()`: Sunday = 0 … Saturday = 6 (1970-01-01 was a
Thursday, weekday 4). -/
def GoTime.weekday (t : GoTime) : Int := (t.days + 4) % 7

/-- Go's `t.AddDate(0, 0, n)`: same clock reading, `n` calendar days later. -/
def GoTime.addDays (t : GoTime) (n : Int) : GoTime := ⟨t.days + n, t.sec⟩

/-- Go's `time.Date(t.Year(), t.Month(), t.Day(), 0, 0, 0, 0, time.Local)`:
read the civil fields of `t` and rebuild the time at midnight. -/
def midnight (t : GoTime) : GoTime := ⟨daysFromCivil (civilFromDays t.days), 0⟩

/-- Zero-pad to two digits, as Go's format verb `01`/`02`/`03`/`04` does for
values in `[0, 99]` (all uses here: month, day, 12-hour clock, minutes). -/
def pad2 (n : Int) : String := if n < 10 then "0" ++ toString n else toString n

/-- Zero-pad to four digits, as Go's format verb `2006` does for years in
`[0, 9999]` (the only years the flag parser can produce). -/
def pad4 (n : Int) : String :=
  if n < 10 then "000" ++ toString n
  else if n < 100 then "00" ++ toString n
  else if n < 1000 then "0" ++ toString n
  else toString n

/-- Go's three-letter month name (format verb `Jan`). -/
def monthName (m : Int) : String :=
  if m = 1 then "Jan" else if m = 2 then "Feb" else if m = 3 then "Mar"
  else if m = 4 then "Apr" else if m = 5 then "May" else if m = 6 then "Jun"
  else if m = 7 then "Jul" else if m = 8 then "Aug" else if m = 9 then "Sep"
  else if m = 10 then "Oct" else if m = 11 then "Nov" else "Dec"

/-- `Format(flagDateFormat)`, i.e. `"2006-01-02"`. -/
def formatFlagDate (c : CivilDate) : String :=
  pad4 c.year ++ "-" ++ pad2 c.month ++ "-" ++ pad2 c.day

/-- `Format(csvDateFormat)`, i.e. `"02-Jan-2006"`. -/
def formatCsvDate (c : CivilDate) : String :=
  pad2 c.day ++ "-" ++ monthName c.month ++ "-" ++ pad4 c.year

/-- `time.Date(0, 0, 0, h, 0, 0, 0, time.Local).Format(csvTimeFormat)`:
Go normalizes the hour into the day (so the hour field is `h mod 24`) and
formats it on the 12-hour clock with an `am`/`pm` marker (`"03:04 pm"`). -/
def formatClock (h : Int) : String :=
  let h24 := h % 24
  let h12 := h24 % 12
  pad2 (if h12 = 0 then 12 else h12) ++ ":00 " ++ (if h24 < 12 then "am" else "pm")

/-- ASCII digit test, as in Go's date-component scanner. -/
def isDigit (c : Char) : Bool := decide (48 ≤ c.toNat ∧ c.toNat ≤ 57)

/-- Numeric value of an ASCII digit. -/
def digitVal (c : Char) : Int := (c.toNat : Int) - 48

/-- The purely textual part of `time.Parse("2006-01-02", s)`: exactly ten
characters, four digits, a hyphen, two digits, a hyphen, two digits.
Returns the raw (unvalidated) components. -/
def readShape (s : String) : Option CivilDate :=
  match s.data with
  | [y1, y2, y3, y4, h1, m1, m2, h2, d1, d2] =>
    if isDigit y1 && isDigit y2 && isDigit y3 && isDigit y4 && (h1 == '-') &&
        isDigit m1 && isDigit m2 && (h2 == '-') && isDigit d1 && isDigit d2 then
      some ⟨digitVal y1 * 1000 + digitVal y2 * 100 + digitVal y3 * 10 + digitVal y4,
            digitVal m1 * 10 + digitVal m2,
            digitVal d1 * 10 + digitVal d2⟩
    else none
  | _ => none

/-- `s` has the `YYYY-MM-DD` shape of the layout `"2006-01-02"`. -/
def matchesDateShape (s : String) : Bool := (readShape s).isSome

/-- Go's `daysIn(m, year)`: length of month `m` of `year`. -/
def daysInMonth (y m : Int) : Int :=
  if m = 2 then (if isLeap y then 29 else 28)
  else if m = 4 ∨ m = 6 ∨ m = 9 ∨ m = 11 then 30
  else 31

/-- The range checks `time.Parse` applies to the scanned components
(`month out of range` / `day out of range`). -/
def validDate (c : CivilDate) : Bool :=
  decide (1 ≤ c.month ∧ c.month ≤ 12 ∧ 1 ≤ c.day ∧ c.day ≤ daysInMonth c.year c.month)

/-- `time.Parse(flagDateFormat, s)`: scan the fixed `YYYY-MM-DD` layout and
validate the component ranges; any failure is a parse error. -/
def parseDate (s : String) : Option CivilDate :=
  match readShape s with
  | none => none
  | some c => if validDate c then some c else none

/-- The errors `parseFlags` can produce, built with `fmt.Errorf` in Go.
Each constructor carries the values interpolated into the message:
`formatError`: `invalid --<flag> %q, expected format %q`;
`rangeError`: `start day %s is after end day %s, that's probably not going
to work for you`. -/
inductive GoErr where
  | formatError (flagName value format : String)
  | rangeError (startDay endDay : GoTime)
deriving DecidableEq, Repr

/-- The flag values of a run: `--start`, `--end` (named `endFlag` because
`end` is reserved in Lean), `--hours`, `--job`. -/
structure Config where
  start : String
  endFlag : String
  hours : Int
  job : String
deriving DecidableEq, Repr

/-- First half of `parseFlags`: resolve the end day — `time.Now()` when
`--end` is empty, otherwise parse it against `flagDateFormat`. -/
def resolveEnd (cfg : Config) (now : GoTime) : Except GoErr GoTime :=
  if cfg.endFlag = "" then .ok now
  else
    match parseDate cfg.endFlag with
    | some c => .ok ⟨daysFromCivil c, 0⟩
    | none => .error (.formatError "--end" cfg.endFlag flagDateFormat)

/-- Second half of `parseFlags`: resolve the start day — the Monday before
(or equal to) `endDay` when `--start` is empty (`time.Weekday` has Sunday
at 0), otherwise parse it against `flagDateFormat`. -/
def resolveStart (cfg : Config) (endDay : GoTime) : Except GoErr GoTime :=
  if cfg.start = "" then
    let daysDiff := (endDay.weekday + 6) % 7
    .ok (endDay.addDays (-daysDiff))
  else
    match parseDate cfg.start with
    | some c => .ok ⟨daysFromCivil c, 0⟩
    | none => .error (.formatError "--start" cfg.start flagDateFormat)

/-- `parseFlags`: resolve both days, reject an inverted range with the
range error, and return both days rebuilt at midnight local time. -/
def parseFlags (cfg : Config) (now : GoTime) : Except GoErr (GoTime × GoTime) :=
  match resolveEnd cfg now with
  | .error e => .error e
  | .ok endDay =>
    match resolveStart cfg endDay with
    | .error e => .error e
    | .ok startDay =>
      if startDay.after endDay then .error (.rangeError startDay endDay)
      else .ok (midnight startDay, midnight endDay)

/-- The `daily` struct: one output row. -/
structure daily where
  date : String
  jobName : String
  startTime : String
  endTime : String
deriving DecidableEq, Repr

/-- `daily.toStringSlice`: the five CSV fields of a row (the `hours` flag
is read as a global in Go; here it is passed in `cfg`). -/
def daily.toStringSlice (d : daily) (cfg : Config) : List String :=
  [d.date, d.jobName, d.startTime, d.endTime, toString cfg.hours]

/-- The loop of `buildLog`: walk one calendar day at a time until
`startDay` is after `endDay`, appending a row for every day that is
neither Saturday (6) nor Sunday (0). -/
def buildLogLoop (cfg : Config) (startHour endHour : String)
    (startDay endDay : GoTime) : List daily :=
  if startDay.after endDay then []
  else
    (if startDay.weekday ≠ 6 ∧ startDay.weekday ≠ 0 then
      [⟨formatCsvDate (civilFromDays startDay.days), cfg.job, startHour, endHour⟩]
    else []) ++ buildLogLoop cfg startHour endHour (startDay.addDays 1) endDay
termination_by (endDay.absSec + 1 - startDay.absSec).toNat
decreasing_by
  simp only [GoTime.after, GoTime.absSec, GoTime.addDays, decide_eq_true_eq, not_lt] at *
  omega

/-- `buildLog`: compute the constant start/end clock strings, run the day
loop, and return a nil error. -/
def buildLog (cfg : Config) (startDay endDay : GoTime) :
    List daily × Option GoErr :=
  let startHour := formatClock 8
  let endHour := formatClock (8 + cfg.hours)
  (buildLogLoop cfg startHour endHour startDay endDay, none)

/-- Go's `unicode.IsSpace` (the White_Space property), used by the csv
writer on a field's first character. -/
def isGoSpace (c : Char) : Bool :=
  decide (c.toNat = 9 ∨ c.toNat = 10 ∨ c.toNat = 11 ∨ c.toNat = 12 ∨
    c.toNat = 13 ∨ c.toNat = 32 ∨ c.toNat = 0x85 ∨ c.toNat = 0xA0 ∨
    c.toNat = 0x1680 ∨ (0x2000 ≤ c.toNat ∧ c.toNat ≤ 0x200A) ∨
    c.toNat = 0x2028 ∨ c.toNat = 0x2029 ∨ c.toNat = 0x202F ∨
    c.toNat = 0x205F ∨ c.toNat = 0x3000)

/-- `encoding/csv`'s `fieldNeedsQuotes` for the default comma separator. -/
def fieldNeedsQuotes (f : String) : Bool :=
  if f = "" then false
  else if f = "\\." then true
  else if f.data.any (fun c => c = ',' ∨ c = '"' ∨ c = '\r' ∨ c = '\n') then true
  else
    match f.data with
    | [] => false
    | c :: _ => isGoSpace c

/-- One csv field as written by `csv.Writer` (with `UseCRLF = false`:
quotes are doubled, `\r` and `\n` are copied through inside quotes). -/
def encodeField (f : String) : String :=
  if fieldNeedsQuotes f then
    "\"" ++ String.join (f.data.map
      (fun c => if c = '"' then "\"\"" else String.singleton c)) ++ "\""
  else f

/-- One csv record as written by `csv.Writer.Write` with the default
comma and `UseCRLF = false`: fields joined by commas, then `\n`. -/
def csvRow (fields : List String) : String :=
  String.intercalate "," (fields.map encodeField) ++ "\n"

/-- `writeCSV`: the header row, then `toStringSlice` of every record via
`WriteAll`.  The sink is modelled as the returned string (the only write
errors in Go come from the external sink, which is out of model). -/
def writeCSV (cfg : Config) (log : List daily) : String :=
  csvRow ["Date", "Job Name", "From time", "To time", "Hours"]
    ++ String.join (log.map (fun d => csvRow (d.toStringSlice cfg)))

/-- The output filename `<start>.<end>.csv` built in `main`. -/
def mkFilename (startDay endDay : GoTime) : String :=
  formatFlagDate (civilFromDays startDay.days) ++ "."
    ++ formatFlagDate (civilFromDays endDay.days) ++ ".csv"

/-- The control flow of `main` after `flag.Parse()`: `parseFlags`, then
`buildLog`, then create the file and write the csv.  A `.error` result is
a `panic(err)` before the output file exists; `.ok` carries the filename
and the full file contents. -/
def runMain (cfg : Config) (now : GoTime) : Except GoErr (String × String) :=
  match parseFlags cfg now with
  | .error e => .error e
  | .ok (startDay, endDay) =>
    match buildLog cfg startDay endDay with
    | (_, some e) => .error e
    | (log, none) => .ok (mkFilename startDay endDay, writeCSV cfg log)

theorem daysFromCivil_civilFromDays (z : Int) :
    daysFromCivil (civilFromDays z) = z := by
  obtain ⟨h1, h2, h3⟩ := yearYday_correct (z + epochDays)
  obtain ⟨hy, hsum⟩ :=
    monthDay_correct (yearYday (z + epochDays)).1 (yearYday (z + epochDays)).2 h2 h3
  unfold civilFromDays daysFromCivil
  dsimp only
  rw [hy]
  omega

/-! ### Helper lemmas about the embedded program -/

/-- Weekday of a day number (Sunday = 0), the formula of `GoTime.weekday`. -/
def goWeekday (z : Int) : Int := (z + 4) % 7

/-- The days of the inclusive range `[s, e]` whose weekday is Monday
through Friday, in increasing order. -/
def weekdaysIn (s e : Int) : List Int :=
  ((List.range (e + 1 - s).toNat).map (fun i : Nat => s + (i : Int))).filter
    (fun z => decide (goWeekday z ≠ 6 ∧ goWeekday z ≠ 0))

/-- The row `buildLog` emits for day number `z`. -/
def recordFor (cfg : Config) (sh eh : String) (z : Int) : daily :=
  ⟨formatCsvDate (civilFromDays z), cfg.job, sh, eh⟩

theorem midnight_eq (t : GoTime) : midnight t = ⟨t.days, 0⟩ := by
  unfold midnight
  rw [daysFromCivil_civilFromDays]

theorem weekdaysIn_nil (s e : Int) (h : e < s) : weekdaysIn s e = [] := by
  unfold weekdaysIn
  have : (e + 1 - s).toNat = 0 := by omega
  rw [this]
  rfl

theorem weekdaysIn_cons (s e : Int) (h : s ≤ e) :
    weekdaysIn s e =
      (if goWeekday s ≠ 6 ∧ goWeekday s ≠ 0 then [s] else [])
        ++ weekdaysIn (s + 1) e := by
  unfold weekdaysIn
  have h1 : (e + 1 - s).toNat = (e + 1 - (s + 1)).toNat + 1 := by omega
  rw [h1, List.range_succ_eq_map, List.map_cons, List.map_map]
  have h2 : List.map ((fun i : Nat => s + (i : Int)) ∘ Nat.succ)
      (List.range (e + 1 - (s + 1)).toNat)
      = List.map (fun i : Nat => s + 1 + (i : Int)) (List.range (e + 1 - (s + 1)).toNat) := by
    refine List.map_congr_left ?_
    intro a _
    simp only [Function.comp_apply, Nat.succ_eq_add_one]
    push_cast
    ring
  rw [h2, List.filter_cons]
  simp only [Nat.cast_zero, add_zero]
  by_cases hw : goWeekday s ≠ 6 ∧ goWeekday s ≠ 0
  · rw [if_pos hw, decide_eq_true hw]
    simp
  · rw [if_neg hw, decide_eq_false hw]
    simp

theorem buildLogLoop_eq (cfg : Config) (sh eh : String) :
    ∀ (n : Nat) (sd ss ed es : Int),
      (ed * 86400 + es + 1 - (sd * 86400 + ss)).toNat ≤ n →
      buildLogLoop cfg sh eh ⟨sd, ss⟩ ⟨ed, es⟩ =
        (weekdaysIn sd (ed + (es - ss) / 86400)).map (recordFor cfg sh eh) := by
  intro n
  induction n with
  | zero =>
    intro sd ss ed es hm
    rw [buildLogLoop]
    have hafter : GoTime.after ⟨sd, ss⟩ ⟨ed, es⟩ = true := by
      simp only [GoTime.after, GoTime.absSec, decide_eq_true_eq]
      omega
    rw [if_pos hafter, weekdaysIn_nil]
    · rfl
    · omega
  | succ n ih =>
    intro sd ss ed es hm
    rw [buildLogLoop]
    by_cases hafter : GoTime.after ⟨sd, ss⟩ ⟨ed, es⟩ = true
    · rw [if_pos hafter, weekdaysIn_nil]
      · rfl
      · simp only [GoTime.after, GoTime.absSec, decide_eq_true_eq] at hafter
        omega
    · rw [if_neg hafter]
      simp only [GoTime.after, GoTime.absSec, decide_eq_true_eq, not_lt] at hafter
      have hstep : buildLogLoop cfg sh eh (GoTime.addDays ⟨sd, ss⟩ 1) ⟨ed, es⟩
          = (weekdaysIn (sd + 1) (ed + (es - ss) / 86400)).map (recordFor cfg sh eh) := by
        have := ih (sd + 1) ss ed es (by omega)
        simpa [GoTime.addDays] using this
      rw [hstep, weekdaysIn_cons sd _ (by omega)]
      by_cases hw : goWeekday sd ≠ 6 ∧ goWeekday sd ≠ 0
      · have hw' : GoTime.weekday ⟨sd, ss⟩ ≠ 6 ∧ GoTime.weekday ⟨sd, ss⟩ ≠ 0 := hw
        rw [if_pos hw', if_pos hw]
        simp [recordFor]
      · have hw' : ¬ (GoTime.weekday ⟨sd, ss⟩ ≠ 6 ∧ GoTime.weekday ⟨sd, ss⟩ ≠ 0) := hw
        rw [if_neg hw', if_neg hw]
        simp

theorem buildLog_eq_weekdays (cfg : Config) (s e : Int) :
    (buildLog cfg ⟨s, 0⟩ ⟨e, 0⟩).1
      = (weekdaysIn s e).map
          (recordFor cfg (formatClock 8) (formatClock (8 + cfg.hours))) := by
  unfold buildLog
  dsimp only
  have h := buildLogLoop_eq cfg (formatClock 8) (formatClock (8 + cfg.hours))
    (e * 86400 + 0 + 1 - (s * 86400 + 0)).toNat s 0 e 0 le_rfl
  simpa using h

theorem buildLog_mem (cfg : Config) (sD eD : GoTime) :
    ∀ r ∈ (buildLog cfg sD eD).1, r.jobName = cfg.job ∧
      r.startTime = formatClock 8 ∧ r.endTime = formatClock (8 + cfg.hours) := by
  intro r hr
  unfold buildLog at hr
  dsimp only at hr
  obtain ⟨sd, ss⟩ := sD
  obtain ⟨ed, es⟩ := eD
  rw [buildLogLoop_eq cfg _ _ (ed * 86400 + es + 1 - (sd * 86400 + ss)).toNat
    sd ss ed es le_rfl] at hr
  obtain ⟨z, _, rfl⟩ := List.mem_map.mp hr
  exact ⟨rfl, rfl, rfl⟩

theorem resolveEnd_empty (cfg : Config) (now : GoTime) (h : cfg.endFlag = "") :
    resolveEnd cfg now = .ok now := by
  unfold resolveEnd
  rw [if_pos h]

theorem resolveStart_empty (cfg : Config) (eR : GoTime) (h : cfg.start = "") :
    resolveStart cfg eR
      = .ok ⟨eR.days + -(((eR.days + 4) % 7 + 6) % 7), eR.sec⟩ := by
  unfold resolveStart
  rw [if_pos h]
  rfl

theorem parseFlags_end_error (cfg : Config) (now : GoTime) (err : GoErr)
    (hE : resolveEnd cfg now = .error err) : parseFlags cfg now = .error err := by
  unfold parseFlags
  rw [hE]

theorem parseFlags_start_error (cfg : Config) (now eR : GoTime) (err : GoErr)
    (hE : resolveEnd cfg now = .ok eR)
    (hS : resolveStart cfg eR = .error err) : parseFlags cfg now = .error err := by
  unfold parseFlags
  rw [hE]
  dsimp only
  rw [hS]

theorem parseFlags_resolved (cfg : Config) (now eR sR : GoTime)
    (hE : resolveEnd cfg now = .ok eR)
    (hS : resolveStart cfg eR = .ok sR) :
    parseFlags cfg now
      = if sR.after eR then .error (.rangeError sR eR)
        else .ok (⟨sR.days, 0⟩, ⟨eR.days, 0⟩) := by
  unfold parseFlags
  rw [hE]
  dsimp only
  rw [hS]
  dsimp only
  rw [midnight_eq, midnight_eq]

theorem after_eq_days_lt (cfg : Config) (now eR sR : GoTime)
    (h0 : 0 ≤ now.sec) (h1 : now.sec < 86400)
    (hE : resolveEnd cfg now = .ok eR)
    (hS : resolveStart cfg eR = .ok sR) :
    sR.after eR = decide (eR.days < sR.days) := by
  have he : (eR.sec = 0) ∨ eR = now := by
    unfold resolveEnd at hE
    by_cases hend : cfg.endFlag = ""
    · rw [if_pos hend] at hE
      right
      cases hE
      rfl
    · rw [if_neg hend] at hE
      cases hp : parseDate cfg.endFlag <;> rw [hp] at hE
      · cases hE
      · left
        cases hE
        rfl
  have hs : (sR.sec = 0) ∨ (sR.sec = eR.sec ∧ sR.days ≤ eR.days) := by
    unfold resolveStart at hS
    by_cases hst : cfg.start = ""
    · rw [if_pos hst] at hS
      dsimp only [GoTime.addDays, GoTime.weekday] at hS
      right
      cases hS
      constructor
      · rfl
      · dsimp only
        omega
    · rw [if_neg hst] at hS
      cases hp : parseDate cfg.start <;> rw [hp] at hS
      · cases hS
      · left
        cases hS
        rfl
  have hesec : 0 ≤ eR.sec ∧ eR.sec < 86400 := by
    rcases he with h | rfl
    · omega
    · exact ⟨h0, h1⟩
  unfold GoTime.after GoTime.absSec
  rw [decide_eq_decide]
  rcases hs with h | ⟨h2, h3⟩ <;> omega

/-! ### Claim theorems -/

/-- C1: for every resolved range (both days at midnight) with
`startDay ≤ endDay`, `buildLog` returns exactly the records of the weekdays
(Monday–Friday) of the inclusive range, in increasing date order — the
record list is the image, in order, of the strictly increasing day list
`weekdaysIn s e` (Saturdays and Sundays are filtered out of it), so its
length is the number of weekdays in `[s, e]`. -/
theorem buildLog_one_record_per_weekday (cfg : Config) (s e : Int) (h : s ≤ e) :
    (buildLog cfg ⟨s, 0⟩ ⟨e, 0⟩).1
        = (weekdaysIn s e).map
            (recordFor cfg (formatClock 8) (formatClock (8 + cfg.hours))) ∧
    (buildLog cfg ⟨s, 0⟩ ⟨e, 0⟩).1.length = (weekdaysIn s e).length ∧
    List.Pairwise (· < ·) (weekdaysIn s e) := by
  refine ⟨buildLog_eq_weekdays cfg s e, ?_, ?_⟩
  · rw [buildLog_eq_weekdays, List.length_map]
  · unfold weekdaysIn
    refine List.Pairwise.filter _ ?_
    rw [List.pairwise_map]
    exact List.Pairwise.imp (fun hab => by omega) (List.pairwise_lt_range _)

/-- Witness for C1 at the spec's boundary scenario: a one-day range on a
Sunday (2024-03-10, day 19792) yields zero records. -/
theorem buildLog_one_record_per_weekday_witness :
    (19792 : Int) ≤ 19792 ∧
    weekdaysIn 19792 19792 = [] ∧
    ((buildLog ⟨"", "", 8, "Work Time"⟩ ⟨19792, 0⟩ ⟨19792, 0⟩).1
        = (weekdaysIn 19792 19792).map
            (recordFor ⟨"", "", 8, "Work Time"⟩ (formatClock 8)
              (formatClock (8 + (8 : Int)))) ∧
      (buildLog ⟨"", "", 8, "Work Time"⟩ ⟨19792, 0⟩ ⟨19792, 0⟩).1.length
        = (weekdaysIn 19792 19792).length ∧
      List.Pairwise (· < ·) (weekdaysIn 19792 19792)) :=
  ⟨le_refl _, by decide,
    buildLog_one_record_per_weekday ⟨"", "", 8, "Work Time"⟩ 19792 19792 (le_refl _)⟩

/-- C2: when `--start` is empty, the resolved start day is the most recent
Monday (`goWeekday = 1`) on or before the resolved end day: it is a Monday,
it is at most the end day, and no later Monday fits; in particular a Monday
end day resolves to itself and a Wednesday (`goWeekday = 3`) end day
resolves to the Monday two days earlier. -/
theorem default_start_is_monday (cfg : Config) (now : GoTime)
    (hstart : cfg.start = "") (s e : GoTime)
    (hok : parseFlags cfg now = .ok (s, e)) :
    s.sec = 0 ∧ e.sec = 0 ∧ s.days ≤ e.days ∧ goWeekday s.days = 1 ∧
    (∀ d : Int, goWeekday d = 1 → d ≤ e.days → d ≤ s.days) ∧
    (goWeekday e.days = 1 → s = e) ∧
    (goWeekday e.days = 3 → s.days = e.days - 2) := by
  cases hE : resolveEnd cfg now with
  | error err =>
    rw [parseFlags_end_error cfg now err hE] at hok
    simp at hok
  | ok eR =>
    have hS := resolveStart_empty cfg eR hstart
    rw [parseFlags_resolved cfg now eR _ hE hS] at hok
    have hafter :
        GoTime.after ⟨eR.days + -(((eR.days + 4) % 7 + 6) % 7), eR.sec⟩ eR = false := by
      unfold GoTime.after GoTime.absSec
      dsimp only
      rw [decide_eq_false_iff_not]
      omega
    rw [hafter] at hok
    simp only [Bool.false_eq_true, if_false] at hok
    rw [Except.ok.injEq, Prod.mk.injEq] at hok
    obtain ⟨hs', he'⟩ := hok
    subst hs'
    subst he'
    dsimp only
    unfold goWeekday
    refine ⟨rfl, rfl, by omega, by omega, ?_, ?_, by omega⟩
    · intro d hd hde
      omega
    · intro h1
      have hdd : eR.days + -(((eR.days + 4) % 7 + 6) % 7) = eR.days := by omega
      rw [hdd]

/-- Witness for C2 at the spec's default-start scenario: end
2024-01-03 (a Wednesday, day 19725) resolves start to Monday 2024-01-01
(day 19723). -/
theorem default_start_is_monday_witness :
    (⟨"", "2024-01-03", 8, "Work Time"⟩ : Config).start = "" ∧
    parseFlags ⟨"", "2024-01-03", 8, "Work Time"⟩ ⟨0, 0⟩
      = .ok (⟨19723, 0⟩, ⟨19725, 0⟩) ∧
    ((⟨19723, 0⟩ : GoTime).sec = 0 ∧ (⟨19725, 0⟩ : GoTime).sec = 0 ∧
      (⟨19723, 0⟩ : GoTime).days ≤ (⟨19725, 0⟩ : GoTime).days ∧
      goWeekday (⟨19723, 0⟩ : GoTime).days = 1 ∧
      (∀ d : Int, goWeekday d = 1 → d ≤ (⟨19725, 0⟩ : GoTime).days →
        d ≤ (⟨19723, 0⟩ : GoTime).days) ∧
      (goWeekday (⟨19725, 0⟩ : GoTime).days = 1 →
        (⟨19723, 0⟩ : GoTime) = (⟨19725, 0⟩ : GoTime)) ∧
      (goWeekday (⟨19725, 0⟩ : GoTime).days = 3 →
        (⟨19723, 0⟩ : GoTime).days = (⟨19725, 0⟩ : GoTime).days - 2)) := by
  have hok : parseFlags ⟨"", "2024-01-03", 8, "Work Time"⟩ ⟨0, 0⟩
      = .ok (⟨19723, 0⟩, ⟨19725, 0⟩) := by rfl
  exact ⟨rfl, hok,
    default_start_is_monday ⟨"", "2024-01-03", 8, "Work Time"⟩ ⟨0, 0⟩ rfl
      ⟨19723, 0⟩ ⟨19725, 0⟩ hok⟩

/-- C3: every record of `buildLog` has the same start and end time strings:
the fixed base hour 8 and base hour plus the configured duration, both in
12-hour clock form; the serialized row repeats the configured duration as
its Hours column; and with `hours = 8` these are `"08:00 am"` and
`"04:00 pm"`. -/
theorem records_constant_times (cfg : Config) (sD eD : GoTime) :
    (∀ r ∈ (buildLog cfg sD eD).1,
        r.startTime = formatClock 8 ∧ r.endTime = formatClock (8 + cfg.hours) ∧
        r.toStringSlice cfg
          = [r.date, cfg.job, formatClock 8, formatClock (8 + cfg.hours),
              toString cfg.hours]) ∧
    (cfg.hours = 8 →
      formatClock 8 = "08:00 am" ∧ formatClock (8 + cfg.hours) = "04:00 pm") := by
  constructor
  · intro r hr
    obtain ⟨hj, hst, het⟩ := buildLog_mem cfg sD eD r hr
    refine ⟨hst, het, ?_⟩
    unfold daily.toStringSlice
    rw [hj, hst, het]
  · intro h8
    rw [h8]
    exact ⟨by decide, by decide⟩

/-- Witness for C3 at the spec's concrete scenario: the Monday 2024-01-01
record of a run with `hours = 8` carries `"08:00 am"` and `"04:00 pm"`. -/
theorem records_constant_times_witness :
    recordFor ⟨"", "", 8, "Work Time"⟩ (formatClock 8) (formatClock (8 + 8)) 19723
        ∈ (buildLog ⟨"", "", 8, "Work Time"⟩ ⟨19723, 0⟩ ⟨19723, 0⟩).1 ∧
    (⟨"", "", 8, "Work Time"⟩ : Config).hours = 8 ∧
    (recordFor ⟨"", "", 8, "Work Time"⟩ (formatClock 8) (formatClock (8 + 8))
        19723).startTime = "08:00 am" ∧
    (recordFor ⟨"", "", 8, "Work Time"⟩ (formatClock 8) (formatClock (8 + 8))
        19723).endTime = "04:00 pm" := by
  have hmem : recordFor ⟨"", "", 8, "Work Time"⟩ (formatClock 8) (formatClock (8 + 8)) 19723
      ∈ (buildLog ⟨"", "", 8, "Work Time"⟩ ⟨19723, 0⟩ ⟨19723, 0⟩).1 := by
    rw [buildLog_eq_weekdays]
    decide
  have h := records_constant_times ⟨"", "", 8, "Work Time"⟩ ⟨19723, 0⟩ ⟨19723, 0⟩
  refine ⟨hmem, rfl, ?_, ?_⟩
  · rw [(h.1 _ hmem).1]
    exact (h.2 rfl).1
  · rw [(h.1 _ hmem).2.1]
    exact (h.2 rfl).2

/-- C4: if the resolved start day is strictly after the resolved end day,
`parseFlags` fails with the range error carrying both resolved days (the
values interpolated into its message), so `main` panics before `buildLog`
and before the output file is created: `runMain` yields no
(filename, contents) pair. -/
theorem range_error_aborts (cfg : Config) (now : GoTime)
    (h0 : 0 ≤ now.sec) (h1 : now.sec < 86400)
    (eR sR : GoTime) (hE : resolveEnd cfg now = .ok eR)
    (hS : resolveStart cfg eR = .ok sR)
    (hlt : eR.days < sR.days) :
    parseFlags cfg now = .error (.rangeError sR eR) ∧
    runMain cfg now = .error (.rangeError sR eR) ∧
    ∀ fn content : String, runMain cfg now ≠ .ok (fn, content) := by
  have hae := after_eq_days_lt cfg now eR sR h0 h1 hE hS
  have hp : parseFlags cfg now = .error (.rangeError sR eR) := by
    rw [parseFlags_resolved cfg now eR sR hE hS, hae]
    simp [hlt]
  have hr : runMain cfg now = .error (.rangeError sR eR) := by
    unfold runMain
    rw [hp]
  refine ⟨hp, hr, ?_⟩
  intro fn content hcon
  rw [hr] at hcon
  simp at hcon

/-- Witness for C4 at the spec's error scenario: start 2024-03-10
(day 19792) after end 2024-03-01 (day 19783). -/
theorem range_error_aborts_witness :
    (0 : Int) ≤ (⟨0, 0⟩ : GoTime).sec ∧ (⟨0, 0⟩ : GoTime).sec < 86400 ∧
    resolveEnd ⟨"2024-03-10", "2024-03-01", 8, "Work Time"⟩ ⟨0, 0⟩
      = .ok ⟨19783, 0⟩ ∧
    resolveStart ⟨"2024-03-10", "2024-03-01", 8, "Work Time"⟩ ⟨19783, 0⟩
      = .ok ⟨19792, 0⟩ ∧
    (⟨19783, 0⟩ : GoTime).days < (⟨19792, 0⟩ : GoTime).days ∧
    (parseFlags ⟨"2024-03-10", "2024-03-01", 8, "Work Time"⟩ ⟨0, 0⟩
        = .error (.rangeError ⟨19792, 0⟩ ⟨19783, 0⟩) ∧
      runMain ⟨"2024-03-10", "2024-03-01", 8, "Work Time"⟩ ⟨0, 0⟩
        = .error (.rangeError ⟨19792, 0⟩ ⟨19783, 0⟩) ∧
      ∀ fn content : String,
        runMain ⟨"2024-03-10", "2024-03-01", 8, "Work Time"⟩ ⟨0, 0⟩
          ≠ .ok (fn, content)) := by
  have hE : resolveEnd ⟨"2024-03-10", "2024-03-01", 8, "Work Time"⟩ ⟨0, 0⟩
      = .ok ⟨19783, 0⟩ := by rfl
  have hS : resolveStart ⟨"2024-03-10", "2024-03-01", 8, "Work Time"⟩ ⟨19783, 0⟩
      = .ok ⟨19792, 0⟩ := by rfl
  exact ⟨by decide, by decide, hE, hS, by decide,
    range_error_aborts ⟨"2024-03-10", "2024-03-01", 8, "Work Time"⟩ ⟨0, 0⟩
      (by decide) (by decide) ⟨19783, 0⟩ ⟨19792, 0⟩ hE hS (by decide)⟩

/-- C5 counterexample: `"2024-13-01"` matches the four-digit-year,
two-digit-month, two-digit-day hyphen-separated shape of the layout, yet
`time.Parse` rejects it (month out of range), so `parseFlags` fails with
the format error instead of parsing successfully. -/
theorem format_match_insufficient :
    matchesDateShape "2024-13-01" = true ∧
    parseDate "2024-13-01" = none ∧
    parseFlags ⟨"2024-13-01", "2024-06-03", 8, "Work Time"⟩ ⟨0, 0⟩
      = .error (.formatError "--start" "2024-13-01" flagDateFormat) := by
  exact ⟨by decide, by decide, by rfl⟩

/-- C5 (amended): an explicit `--start`/`--end` string that fails to parse
makes `parseFlags` fail with a format error naming the offending flag and
the expected layout; a string whose textual shape does not match the
layout always fails to parse; and a shape-matching string parses
successfully provided its month and day are also in range (Go's parser
range-checks the components, so shape alone is not sufficient). -/
theorem format_error_characterization (cfg : Config) (now : GoTime) :
    (cfg.endFlag ≠ "" → parseDate cfg.endFlag = none →
      parseFlags cfg now
        = .error (.formatError "--end" cfg.endFlag flagDateFormat)) ∧
    (cfg.start ≠ "" → parseDate cfg.start = none →
      ∀ eR, resolveEnd cfg now = .ok eR →
        parseFlags cfg now
          = .error (.formatError "--start" cfg.start flagDateFormat)) ∧
    (∀ str, matchesDateShape str = false → parseDate str = none) ∧
    (∀ str c, readShape str = some c → validDate c = true →
      parseDate str = some c) := by
  refine ⟨?_, ?_, ?_, ?_⟩
  · intro hne hnone
    refine parseFlags_end_error cfg now _ ?_
    unfold resolveEnd
    rw [if_neg hne, hnone]
  · intro hne hnone eR hE
    refine parseFlags_start_error cfg now eR _ hE ?_
    unfold resolveStart
    rw [if_neg hne, hnone]
  · intro str hm
    unfold matchesDateShape at hm
    unfold parseDate
    cases hrs : readShape str
    · rfl
    · rw [hrs] at hm
      simp at hm
  · intro str c hrs hv
    unfold parseDate
    rw [hrs]
    dsimp only
    rw [if_pos hv]

/-- Witness for C5's amended theorem at the spec's error scenario:
`--start "03/10/2024"` fails with the format error naming `--start`. -/
theorem format_error_characterization_witness :
    (⟨"03/10/2024", "2024-03-01", 8, "Work Time"⟩ : Config).start ≠ "" ∧
    parseDate "03/10/2024" = none ∧
    resolveEnd ⟨"03/10/2024", "2024-03-01", 8, "Work Time"⟩ ⟨0, 0⟩
      = .ok ⟨19783, 0⟩ ∧
    parseFlags ⟨"03/10/2024", "2024-03-01", 8, "Work Time"⟩ ⟨0, 0⟩
      = .error (.formatError "--start" "03/10/2024" flagDateFormat) := by
  refine ⟨by decide, by decide, by rfl, ?_⟩
  exact (format_error_characterization
      ⟨"03/10/2024", "2024-03-01", 8, "Work Time"⟩ ⟨0, 0⟩).2.1
    (by decide) (by decide) ⟨19783, 0⟩ (by rfl)

/-- C6: a successful `parseFlags` returns both resolved days rebuilt at
midnight — same calendar day, zero time of day — and the range check is
equivalent to comparing the resolved calendar days: `After` on the
pre-normalization values decides exactly `endDays < startDays`. -/
theorem parseFlags_discards_time (cfg : Config) (now : GoTime)
    (h0 : 0 ≤ now.sec) (h1 : now.sec < 86400)
    (eR sR : GoTime) (hE : resolveEnd cfg now = .ok eR)
    (hS : resolveStart cfg eR = .ok sR) :
    sR.after eR = decide (eR.days < sR.days) ∧
    (¬ eR.days < sR.days →
      parseFlags cfg now = .ok (⟨sR.days, 0⟩, ⟨eR.days, 0⟩)) ∧
    (eR.days < sR.days →
      parseFlags cfg now = .error (.rangeError sR eR)) := by
  have hae := after_eq_days_lt cfg now eR sR h0 h1 hE hS
  refine ⟨hae, ?_, ?_⟩
  · intro hlt
    rw [parseFlags_resolved cfg now eR sR hE hS, hae]
    simp [hlt]
  · intro hlt
    rw [parseFlags_resolved cfg now eR sR hE hS, hae]
    simp [hlt]

/-- Witness for C6: explicit start Monday 2024-03-04 (day 19786), end
defaulting to a `now` of day 19788 with a nonzero time of day (01:00),
which is discarded in the returned pair. -/
theorem parseFlags_discards_time_witness :
    (0 : Int) ≤ (⟨19788, 3600⟩ : GoTime).sec ∧
    (⟨19788, 3600⟩ : GoTime).sec < 86400 ∧
    resolveEnd ⟨"2024-03-04", "", 8, "Work Time"⟩ ⟨19788, 3600⟩
      = .ok ⟨19788, 3600⟩ ∧
    resolveStart ⟨"2024-03-04", "", 8, "Work Time"⟩ ⟨19788, 3600⟩
      = .ok ⟨19786, 0⟩ ∧
    (GoTime.after ⟨19786, 0⟩ ⟨19788, 3600⟩
        = decide ((⟨19788, 3600⟩ : GoTime).days < (⟨19786, 0⟩ : GoTime).days) ∧
      parseFlags ⟨"2024-03-04", "", 8, "Work Time"⟩ ⟨19788, 3600⟩
        = .ok (⟨19786, 0⟩, ⟨19788, 0⟩)) := by
  have hE : resolveEnd ⟨"2024-03-04", "", 8, "Work Time"⟩ ⟨19788, 3600⟩
      = .ok ⟨19788, 3600⟩ := by rfl
  have hS : resolveStart ⟨"2024-03-04", "", 8, "Work Time"⟩ ⟨19788, 3600⟩
      = .ok ⟨19786, 0⟩ := by rfl
  have h := parseFlags_discards_time ⟨"2024-03-04", "", 8, "Work Time"⟩
    ⟨19788, 3600⟩ (by decide) (by decide) ⟨19788, 3600⟩ ⟨19786, 0⟩ hE hS
  exact ⟨by decide, by decide, hE, hS, h.1, h.2.1 (by decide)⟩

/-- C7: when the configured duration pushes the end time past 24:00, no
validation happens and `buildLog` does not fail: the error is still `none`,
there is still one record per weekday, and the end time is the 12-hour
rendering of the wrapped clock value `(8 + hours) mod 24`. -/
theorem hours_overflow_unvalidated (cfg : Config) (s e : Int)
    (hover : 24 < 8 + cfg.hours) :
    (buildLog cfg ⟨s, 0⟩ ⟨e, 0⟩).2 = none ∧
    (buildLog cfg ⟨s, 0⟩ ⟨e, 0⟩).1
      = (weekdaysIn s e).map
          (recordFor cfg (formatClock 8) (formatClock (8 + cfg.hours))) ∧
    formatClock (8 + cfg.hours) = formatClock ((8 + cfg.hours) % 24) := by
  refine ⟨rfl, buildLog_eq_weekdays cfg s e, ?_⟩
  unfold formatClock
  rw [Int.emod_emod_of_dvd _ dvd_rfl]

/-- Witness for C7 with `hours = 20`: the end time wraps to 04:00 the next
morning and is rendered `"04:00 am"`; generation still succeeds. -/
theorem hours_overflow_unvalidated_witness :
    (24 : Int) < 8 + 20 ∧
    formatClock (8 + (20 : Int)) = "04:00 am" ∧
    ((buildLog ⟨"", "", 20, "Work Time"⟩ ⟨19723, 0⟩ ⟨19723, 0⟩).2 = none ∧
      (buildLog ⟨"", "", 20, "Work Time"⟩ ⟨19723, 0⟩ ⟨19723, 0⟩).1
        = (weekdaysIn 19723 19723).map
            (recordFor ⟨"", "", 20, "Work Time"⟩ (formatClock 8)
              (formatClock (8 + (20 : Int)))) ∧
      formatClock (8 + (20 : Int)) = formatClock ((8 + (20 : Int)) % 24)) :=
  ⟨by decide, by decide,
    hours_overflow_unvalidated ⟨"", "", 20, "Work Time"⟩ 19723 19723 (by decide)⟩

/-- C8: in this embedding `buildLog` and `writeCSV` are functions of the
resolved days, hours and job name only, so identical resolved inputs give
identical records and byte-identical csv text definitionally; substantively,
when both date flags are explicitly supplied the entire run is independent
of the wall clock `now`, so two runs with identical explicit inputs produce
identical output. -/
theorem deterministic_output (cfg : Config) (now1 now2 : GoTime)
    (hs : cfg.start ≠ "") (he : cfg.endFlag ≠ "") :
    runMain cfg now1 = runMain cfg now2 := by
  unfold runMain
  have hp : parseFlags cfg now1 = parseFlags cfg now2 := by
    unfold parseFlags resolveEnd
    simp only [if_neg he]
  rw [hp]

/-- Witness for C8: the spec's concrete scenario run at two different wall
clocks produces the same result. -/
theorem deterministic_output_witness :
    (⟨"2024-01-01", "2024-01-07", 8, "Work Time"⟩ : Config).start ≠ "" ∧
    (⟨"2024-01-01", "2024-01-07", 8, "Work Time"⟩ : Config).endFlag ≠ "" ∧
    runMain ⟨"2024-01-01", "2024-01-07", 8, "Work Time"⟩ ⟨0, 0⟩
      = runMain ⟨"2024-01-01", "2024-01-07", 8, "Work Time"⟩ ⟨19999, 77⟩ :=
  ⟨by decide, by decide,
    deterministic_output ⟨"2024-01-01", "2024-01-07", 8, "Work Time"⟩
      ⟨0, 0⟩ ⟨19999, 77⟩ (by decide) (by decide)⟩

/-- C9: `writeCSV` serializes the header row with the five column names
`Date`, `Job Name`, `From time`, `To time`, `Hours` (comma-separated, as in
the spec's concrete scenario), followed by exactly one comma-separated data
row per record in record order, each row carrying the five columns date,
job name, from time, to time, hours. -/
theorem writeCSV_header_then_rows (cfg : Config) (log : List daily) :
    writeCSV cfg log
      = "Date,Job Name,From time,To time,Hours\n"
        ++ String.join (log.map (fun d => csvRow (d.toStringSlice cfg))) ∧
    ∀ d : daily, d.toStringSlice cfg
      = [d.date, d.jobName, d.startTime, d.endTime, toString cfg.hours] := by
  constructor
  · unfold writeCSV
    have hh : csvRow ["Date", "Job Name", "From time", "To time", "Hours"]
        = "Date,Job Name,From time,To time,Hours\n" := by decide
    rw [hh]
  · intro d
    rfl

/-- C10: `buildLog` never fails — its error component is `nil` for every
pair of days (a start after the end just yields an empty list) — so once
`parseFlags` succeeds, the error branch after the `buildLog` call in `main`
is unreachable and the run always reaches the csv output. -/
theorem buildLog_never_errors (cfg : Config) (sD eD : GoTime) :
    (buildLog cfg sD eD).2 = none ∧
    (sD.after eD = true → (buildLog cfg sD eD).1 = []) ∧
    (∀ now s e, parseFlags cfg now = .ok (s, e) →
      runMain cfg now
        = .ok (mkFilename s e, writeCSV cfg (buildLog cfg s e).1)) := by
  refine ⟨rfl, ?_, ?_⟩
  · intro h
    unfold buildLog
    dsimp only
    rw [buildLogLoop, if_pos h]
  · intro now s e hok
    unfold runMain
    rw [hok]
    rfl

/-- Witness for C10: an inverted pair of days yields `(nil, nil)`, and the
spec's concrete scenario reaches the csv output. -/
theorem buildLog_never_errors_witness :
    GoTime.after ⟨5, 0⟩ ⟨3, 0⟩ = true ∧
    parseFlags ⟨"2024-01-01", "2024-01-07", 8, "Work Time"⟩ ⟨0, 0⟩
      = .ok (⟨19723, 0⟩, ⟨19729, 0⟩) ∧
    (buildLog ⟨"2024-01-01", "2024-01-07", 8, "Work Time"⟩ ⟨5, 0⟩ ⟨3, 0⟩).2
      = none ∧
    (buildLog ⟨"2024-01-01", "2024-01-07", 8, "Work Time"⟩ ⟨5, 0⟩ ⟨3, 0⟩).1
      = [] ∧
    runMain ⟨"2024-01-01", "2024-01-07", 8, "Work Time"⟩ ⟨0, 0⟩
      = .ok (mkFilename ⟨19723, 0⟩ ⟨19729, 0⟩,
          writeCSV ⟨"2024-01-01", "2024-01-07", 8, "Work Time"⟩
            (buildLog ⟨"2024-01-01", "2024-01-07", 8, "Work Time"⟩
              ⟨19723, 0⟩ ⟨19729, 0⟩).1) := by
  have h := buildLog_never_errors
    ⟨"2024-01-01", "2024-01-07", 8, "Work Time"⟩ ⟨5, 0⟩ ⟨3, 0⟩
  have hok : parseFlags ⟨"2024-01-01", "2024-01-07", 8, "Work Time"⟩ ⟨0, 0⟩
      = .ok (⟨19723, 0⟩, ⟨19729, 0⟩) := by rfl
  exact ⟨by decide, hok, h.1, h.2.1 (by decide), h.2.2 ⟨0, 0⟩ _ _ hok⟩

end Zohono
